import Mathlib

/-!
Shallow embedding of the avr-lib interrupt-driven I2C master engine
(src/unnamed/part_000) and UART transceiver engine (src/uart.h).

Pointers are 16-bit AVR addresses, modelled as natural numbers reduced
modulo 2^16; 8-bit registers are reduced modulo 2^8 at each store.
RAM is a function from addresses to byte values.  Each interrupt
handler is a pure step function on an explicit peripheral state.
-/

namespace AvrLib

/-- Size of the 16-bit AVR address space. -/
def M : Nat := 65536

/-- Reduce a pointer value into the 16-bit address space. -/
def wrap (n : Nat) : Nat := n % M

/-- A single bit mask, `1 << n` of the C source. -/
def bit (n : Nat) : Nat := 2 ^ n

/- TWCR control-register bit positions of the AVR TWI peripheral. -/
def TWINT : Nat := 7
def TWEA : Nat := 6
def TWSTA : Nat := 5
def TWSTO : Nat := 4
def TWEN : Nat := 2
def TWIE : Nat := 0

/- enum i2c_flag -/
def i2c_flag_holdControl : Nat := 1
def i2c_flag_retry : Nat := 2

/- enum i2c_state (C enumerators, including their negative members) -/
def i2c_state_unknown : Int := -1
def i2c_state_free : Int := 0
def i2c_state_masterWrite : Int := 1
def i2c_state_masterRead : Int := 2
def i2c_state_error : Int := -2

/- enum i2c_status (AVR TWSR codes) -/
def i2c_status_master_start : Nat := 0x08
def i2c_status_master_repeatedStart : Nat := 0x10
def i2c_status_master_lost : Nat := 0x38
def i2c_status_masterWrite_addrAck : Nat := 0x18
def i2c_status_masterWrite_addrNak : Nat := 0x20
def i2c_status_masterWrite_dataAck : Nat := 0x28
def i2c_status_masterWrite_dataNak : Nat := 0x30
def i2c_status_masterRead_addrAck : Nat := 0x40
def i2c_status_masterRead_addrNak : Nat := 0x48
def i2c_status_masterRead_dataAck : Nat := 0x50
def i2c_status_masterRead_dataNak : Nat := 0x58
def i2c_status_free : Nat := 0xF8
def i2c_status_error : Nat := 0x00

/-- State of the TWI peripheral together with the `struct I2C` software
context and the RAM the buffer pointers address.  `mem` is RAM. -/
structure TWI where
  state : Int
  status : Nat
  flag : Nat
  deviceAddr : Nat
  dataStart : Nat
  dataPtr : Nat
  dataEnd : Nat
  twbr : Nat
  twdr : Nat
  twcr : Nat
  mem : Nat → Nat

/-- The C global `i2c = { .state = i2c_state_unknown }` with zeroed
registers and RAM. -/
def twi0 : TWI :=
  { state := i2c_state_unknown, status := 0, flag := 0, deviceAddr := 0,
    dataStart := 0, dataPtr := 0, dataEnd := 0,
    twbr := 0, twdr := 0, twcr := 0, mem := fun _ => 0 }

/-- Model of `i2c_init`: set `state = i2c_state_free` and program
`TWBR = (f_cpu / f_i2c - 16) / 2` (uint32 arithmetic, stored in an
8-bit register). -/
def i2c_init (s : TWI) (f_cpu f_i2c : Nat) : TWI :=
  { s with state := i2c_state_free,
           twbr := ((f_cpu / f_i2c + (2 ^ 32 - 16)) % 2 ^ 32 / 2) % 2 ^ 8 }

/-- Model of `i2c_master_write`: arm a master-transmitter transaction. -/
def i2c_master_write (s : TWI) (addr flag data size : Nat) : TWI :=
  { s with state := i2c_state_masterWrite,
           flag := flag,
           deviceAddr := addr * 2 % 2 ^ 8,
           dataStart := wrap data,
           dataPtr := wrap data,
           dataEnd := wrap (data + size),
           twcr := bit TWINT + bit TWSTA + bit TWEN + bit TWIE }

/-- Model of `i2c_master_read`: arm a master-receiver transaction; the device
address carries the read-direction bit (`(addr << 1) | 1`). -/
def i2c_master_read (s : TWI) (addr flag data size : Nat) : TWI :=
  { s with state := i2c_state_masterRead,
           flag := flag,
           deviceAddr := addr * 2 % 2 ^ 8 + 1,
           dataStart := wrap data,
           dataPtr := wrap data,
           dataEnd := wrap (data + size),
           twcr := bit TWINT + bit TWSTA + bit TWEN + bit TWIE }

/-- Model of `i2c_getStatus`. -/
def i2c_getStatus (s : TWI) : Nat := s.status

/-- Model of `i2c_getState`. -/
def i2c_getState (s : TWI) : Int := s.state

/-- Model of `i2c_getProgress`: `i2c.dataEnd - i2c.dataPtr`, a 16-bit pointer
difference truncated to `uint16_t`. -/
def i2c_getProgress (s : TWI) : Nat := (s.dataEnd + M - s.dataPtr) % M

/-- Computation of `TWSR & 0xF8` on the 8-bit status register. -/
def twsrMask (c : Nat) : Nat := c % 2 ^ 8 / 8 * 8

/-- Body of the `switch (TWSR & 0xF8)` of `ISR(TWI_vect)`, applied after
`i2c.status` has been recorded; `c` is the masked status code. -/
def twiDispatch (s : TWI) (c : Nat) : TWI :=
  if c = i2c_status_master_start ∨ c = i2c_status_master_repeatedStart then
    { s with twdr := s.deviceAddr,
             twcr := bit TWINT + bit TWEN + bit TWIE }
  else if c = i2c_status_masterWrite_addrAck ∨ c = i2c_status_masterWrite_addrNak ∨
          c = i2c_status_masterWrite_dataAck ∨ c = i2c_status_masterWrite_dataNak then
    if s.dataPtr ≠ s.dataEnd then
      { s with twdr := s.mem s.dataPtr,
               dataPtr := wrap (s.dataPtr + 1),
               twcr := bit TWINT + bit TWEN + bit TWIE }
    else
      let s2 := { s with state := i2c_state_free }
      if s2.flag % 2 = 1 then
        { s2 with twcr := bit TWEN }
      else
        { s2 with twcr := bit TWINT + bit TWSTO + bit TWEN }
  else if c = i2c_status_masterRead_addrAck then
    { s with twcr := bit TWINT +
               (if s.dataPtr ≠ wrap (s.dataEnd + M - 1) then bit TWEA else 0) +
               bit TWEN + bit TWIE }
  else if c = i2c_status_masterRead_addrNak then
    { s with state := i2c_state_free,
             twcr := bit TWINT + bit TWSTO + bit TWEN }
  else if c = i2c_status_masterRead_dataAck then
    { s with mem := fun a => if a = s.dataPtr then s.twdr % 2 ^ 8 else s.mem a,
             dataPtr := wrap (s.dataPtr + 1),
             twcr := bit TWINT +
               (if wrap (s.dataPtr + 1) ≠ wrap (s.dataEnd + M - 1) then bit TWEA else 0) +
               bit TWEN + bit TWIE }
  else if c = i2c_status_masterRead_dataNak then
    let s2 := { s with mem := fun a => if a = s.dataPtr then s.twdr % 2 ^ 8 else s.mem a,
                       dataPtr := wrap (s.dataPtr + 1),
                       state := i2c_state_free }
    if s2.flag % 2 = 1 then
      { s2 with twcr := bit TWEN }
    else
      { s2 with twcr := bit TWINT + bit TWSTO + bit TWEN }
  else if c = i2c_status_error then
    { s with state := i2c_state_free,
             twcr := bit TWINT + bit TWSTO + bit TWEN }
  else
    { s with state := i2c_state_free,
             twcr := bit TWINT + bit TWEN }

/-- Model of `ISR(TWI_vect)`: record `i2c.status = TWSR & 0xF8`, then dispatch on
the masked code. -/
def twi_isr (s : TWI) (twsr : Nat) : TWI :=
  twiDispatch { s with status := twsrMask twsr } (twsrMask twsr)

/-- The buffer addresses `ISR(TWI_vect)` dereferences (reads or writes
through `i2c.dataPtr`) when handling the given status code: the
master-write continue branch reads `*dataPtr`, and both data-received
branches write `*dataPtr`.  No other branch touches RAM. -/
def twi_isr_touches (s : TWI) (twsr : Nat) : List Nat :=
  let c := twsrMask twsr
  if c = i2c_status_masterWrite_addrAck ∨ c = i2c_status_masterWrite_addrNak ∨
     c = i2c_status_masterWrite_dataAck ∨ c = i2c_status_masterWrite_dataNak then
    if s.dataPtr ≠ s.dataEnd then [s.dataPtr] else []
  else if c = i2c_status_masterRead_dataAck ∨ c = i2c_status_masterRead_dataNak then
    [s.dataPtr]
  else
    []

/-- One foreground or hardware interaction with the I2C engine: a
`i2c_master_write` call, a `i2c_master_read` call, or a hardware event
delivering a TWSR status code after loading TWDR with a received byte. -/
inductive I2COp where
  | opWrite (addr flag data size : Nat)
  | opRead (addr flag data size : Nat)
  | opEvent (twsr twdr : Nat)

/-- Apply one interaction to the engine state. -/
def i2c_step (s : TWI) : I2COp → TWI
  | I2COp.opWrite a f d n => i2c_master_write s a f d n
  | I2COp.opRead a f d n => i2c_master_read s a f d n
  | I2COp.opEvent c d => twi_isr { s with twdr := d } c

/-- Apply a sequence of interactions to the engine state. -/
def i2c_run (s : TWI) : List I2COp → TWI
  | [] => s
  | op :: ops => i2c_run (i2c_step s op) ops

/-- Hardware-event reachability from a state, restricted to event
sequences in which a data-received status code (`0x50`/`0x58`) is only
delivered while `dataPtr < dataEnd` (the engine itself never checks
this; the hardware provokes data-received events only for bytes the
engine acknowledged). -/
inductive GuardedReach : TWI → TWI → Prop where
  | refl (s : TWI) : GuardedReach s s
  | step (s t : TWI) (twsr twdr : Nat) :
      GuardedReach s t →
      ((twsrMask twsr = i2c_status_masterRead_dataAck ∨
        twsrMask twsr = i2c_status_masterRead_dataNak) → t.dataPtr < t.dataEnd) →
      GuardedReach s (twi_isr { t with twdr := twdr } twsr)

/-- Drive a master-read transfer: the address-acknowledged event
followed by `j` data-received-with-acknowledge events.  The state after
`i2c_readAcks s j` holds the control-register value arming reception of
byte `j + 1`. -/
def i2c_readAcks (s : TWI) : Nat → TWI
  | 0 => twi_isr s i2c_status_masterRead_addrAck
  | j + 1 => twi_isr (i2c_readAcks s j) i2c_status_masterRead_dataAck

/- ==== UART engine (src/uart.h) ==== -/

/- uart_mode bit masks -/
def uart_mode_txManual : Nat := 0x01
def uart_mode_txAuto : Nat := 0x02
def uart_mode_rxManual : Nat := 0x04
def uart_mode_rxAuto : Nat := 0x08
def uart_mode_stop2 : Nat := 0x10
def uart_mode_speedDouble : Nat := 0x20

/- Special-function-register offsets from the UCSRnA base address. -/
def SFR_DATA : Nat := 6
def SFR_BAUD : Nat := 4
def SFR_CFGC : Nat := 2
def SFR_CFGB : Nat := 1
def SFR_CFGA : Nat := 0

/- Register bit positions (ATmega UCSRnA/UCSRnB/UCSRnC). -/
def U2X0 : Nat := 1
def UDRE0 : Nat := 5
def RXC0 : Nat := 7
def TXEN0 : Nat := 3
def TXCIE0 : Nat := 6
def RXEN0 : Nat := 4
def RXCIE0 : Nat := 7
def USBS0 : Nat := 3

/-- Model of `struct UART` of src/uart.h together with the register file it
addresses through `srfAddr` (modelled as `sfr`, indexed by offset) and
the RAM the buffer pointers address (`mem`). -/
structure UART where
  sfr : Nat → Nat
  mode : Nat
  tx_ptr : Nat
  tx_end : Nat
  rx_ptr : Nat
  rx_end : Nat
  rx_addr : Nat
  mem : Nat → Nat

/-- A zero-initialised UART object, register file and RAM. -/
def uart0 : UART :=
  { sfr := fun _ => 0, mode := 0, tx_ptr := 0, tx_end := 0,
    rx_ptr := 0, rx_end := 0, rx_addr := 0, mem := fun _ => 0 }

/-- Model of `uart->srfAddr[i] = v`: store a byte into an 8-bit register. -/
def setSfr (u : UART) (i v : Nat) : UART :=
  { u with sfr := fun a => if a = i then v % 2 ^ 8 else u.sfr a }

/-- Model of `uart_init` of src/uart.h, translated as written: every `if` tests
`mode | uart_mode_*`, a bitwise OR.  The baud divisor is computed in
`uint32_t` and truncated into the `uint16_t` local `clk`. -/
def uart_init (u0 : UART) (f_cpu baud mode : Nat) : UART :=
  let u := { u0 with mode := 0 }
  let u :=
    if Nat.lor mode uart_mode_speedDouble ≠ 0 then
      let clk := (f_cpu / 8 / baud + (2 ^ 32 - 1)) % 2 ^ 32 % 2 ^ 16
      let u := setSfr u (SFR_BAUD + 0) clk
      let u := setSfr u (SFR_BAUD + 1) (clk / 2 ^ 8)
      setSfr u SFR_CFGA (Nat.lor (u.sfr SFR_CFGA) (bit U2X0))
    else
      let clk := (f_cpu / 16 / baud + (2 ^ 32 - 1)) % 2 ^ 32 % 2 ^ 16
      let u := setSfr u (SFR_BAUD + 0) clk
      setSfr u (SFR_BAUD + 1) (clk / 2 ^ 8)
  let u :=
    if Nat.lor mode uart_mode_txAuto ≠ 0 then
      let u := setSfr u SFR_CFGB (Nat.lor (u.sfr SFR_CFGB) (Nat.lor (bit TXEN0) (bit TXCIE0)))
      { u with mode := Nat.lor u.mode uart_mode_txAuto }
    else if Nat.lor mode uart_mode_txManual ≠ 0 then
      let u := setSfr u SFR_CFGB (Nat.lor (u.sfr SFR_CFGB) (bit TXEN0))
      { u with mode := Nat.lor u.mode uart_mode_txManual }
    else u
  let u :=
    if Nat.lor mode uart_mode_rxAuto ≠ 0 then
      let u := setSfr u SFR_CFGB (Nat.lor (u.sfr SFR_CFGB) (Nat.lor (bit RXEN0) (bit RXCIE0)))
      { u with mode := Nat.lor u.mode uart_mode_rxAuto }
    else if Nat.lor mode uart_mode_rxManual ≠ 0 then
      let u := setSfr u SFR_CFGB (Nat.lor (u.sfr SFR_CFGB) (bit RXEN0))
      { u with mode := Nat.lor u.mode uart_mode_rxManual }
    else u
  if Nat.lor mode uart_mode_stop2 ≠ 0 then
    setSfr u SFR_CFGC (Nat.lor (u.sfr SFR_CFGC) (bit USBS0))
  else u

/-- Model of `uart_sendAuto`: write the first byte of the buffer into the
transmit data register immediately, then bind `tx_ptr`/`tx_end`. -/
def uart_sendAuto (u0 : UART) (data size : Nat) : UART :=
  let u := setSfr u0 SFR_DATA (u0.mem (wrap data))
  { u with tx_ptr := wrap data, tx_end := wrap (data + size) }

/-- Model of `uart_sendAutoProgress`: `tx_end - tx_ptr`, a 16-bit pointer
difference truncated to `uint16_t`. -/
def uart_sendAutoProgress (u : UART) : Nat := (u.tx_end + M - u.tx_ptr) % M

/-- Model of `uart_sendAuto_ISR` (transmit-empty handler): advance `tx_ptr`,
then load the next byte unless `tx_ptr == tx_end`. -/
def uart_sendAuto_ISR (u0 : UART) : UART :=
  let u := { u0 with tx_ptr := wrap (u0.tx_ptr + 1) }
  if u.tx_ptr ≠ u.tx_end then setSfr u SFR_DATA (u.mem u.tx_ptr) else u

/-- Iterate `k` consecutive transmit-empty handler invocations. -/
def uart_isrIter (u : UART) : Nat → UART
  | 0 => u
  | k + 1 => uart_sendAuto_ISR (uart_isrIter u k)

/- Concrete sample contexts used to instantiate the claim theorems. -/

/-- MasterWriting, two bytes remaining, RAM byte at address `a` is `a + 11`. -/
def twiW2 : TWI :=
  { twi0 with state := i2c_state_masterWrite, dataEnd := 2, mem := fun a => a + 11 }

/-- MasterWriting, three bytes remaining. -/
def twiW3 : TWI := { twi0 with state := i2c_state_masterWrite, dataEnd := 3 }

/-- MasterWriting, four bytes remaining. -/
def twiW4 : TWI := { twi0 with state := i2c_state_masterWrite, dataEnd := 4 }

/-- MasterWriting, no bytes remaining, HoldBus flag set. -/
def twiHold : TWI := { twi0 with state := i2c_state_masterWrite, flag := i2c_flag_holdControl }

/- ==== Helper lemmas ==== -/

theorem wrap_eq_of_lt (n : Nat) (h : n < M) : wrap n = n := Nat.mod_eq_of_lt h

theorem wrap_add_sub_one (e : Nat) (h1 : 1 ≤ e) (h2 : e < M) :
    wrap (e + M - 1) = e - 1 := by
  unfold wrap
  have h3 : e + M - 1 = M + (e - 1) := by omega
  rw [h3, Nat.add_mod_left, Nat.mod_eq_of_lt (by omega)]

theorem i2c_getProgress_eq (s : TWI) (h1 : s.dataPtr ≤ s.dataEnd) (h2 : s.dataEnd < M) :
    i2c_getProgress s = s.dataEnd - s.dataPtr := by
  unfold i2c_getProgress
  have h3 : s.dataEnd + M - s.dataPtr = M + (s.dataEnd - s.dataPtr) := by omega
  rw [h3, Nat.add_mod_left, Nat.mod_eq_of_lt (by omega)]

theorem uart_progress_eq (u : UART) (h1 : u.tx_ptr ≤ u.tx_end) (h2 : u.tx_end < M) :
    uart_sendAutoProgress u = u.tx_end - u.tx_ptr := by
  unfold uart_sendAutoProgress
  have h3 : u.tx_end + M - u.tx_ptr = M + (u.tx_end - u.tx_ptr) := by omega
  rw [h3, Nat.add_mod_left, Nat.mod_eq_of_lt (by omega)]

/-- The hold-bus control word carries no stop bit. -/
theorem testBit_stop_hold : Nat.testBit (bit TWEN) TWSTO = false := by decide

/-- The release control word carries the stop bit. -/
theorem testBit_stop_release : Nat.testBit (bit TWINT + bit TWSTO + bit TWEN) TWSTO = true := by
  decide

/-- The catch-all control word carries no stop bit. -/
theorem testBit_stop_catchall : Nat.testBit (bit TWINT + bit TWEN) TWSTO = false := by decide

/-- The master-write event group of the dispatch. -/
theorem twiDispatch_write_eq (s : TWI) (c : Nat)
    (hc : c = i2c_status_masterWrite_addrAck ∨ c = i2c_status_masterWrite_addrNak ∨
          c = i2c_status_masterWrite_dataAck ∨ c = i2c_status_masterWrite_dataNak) :
    twiDispatch s c =
      if s.dataPtr ≠ s.dataEnd then
        { s with twdr := s.mem s.dataPtr,
                 dataPtr := wrap (s.dataPtr + 1),
                 twcr := bit TWINT + bit TWEN + bit TWIE }
      else if s.flag % 2 = 1 then
        { s with state := i2c_state_free, twcr := bit TWEN }
      else
        { s with state := i2c_state_free, twcr := bit TWINT + bit TWSTO + bit TWEN } := by
  rcases hc with h | h | h | h <;> subst h <;> rfl

/-- The master-read data-received-with-non-acknowledge branch of the
dispatch. -/
theorem twiDispatch_readDataNak_eq (s : TWI) :
    twiDispatch s i2c_status_masterRead_dataNak =
      (if s.flag % 2 = 1 then
        { s with mem := fun a => if a = s.dataPtr then s.twdr % 2 ^ 8 else s.mem a,
                 dataPtr := wrap (s.dataPtr + 1),
                 state := i2c_state_free,
                 twcr := bit TWEN }
      else
        { s with mem := fun a => if a = s.dataPtr then s.twdr % 2 ^ 8 else s.mem a,
                 dataPtr := wrap (s.dataPtr + 1),
                 state := i2c_state_free,
                 twcr := bit TWINT + bit TWSTO + bit TWEN }) := rfl

/-- The master-read address-acknowledged branch of the handler. -/
theorem twi_isr_readAddrAck (s : TWI) :
    twi_isr s i2c_status_masterRead_addrAck =
      { s with status := i2c_status_masterRead_addrAck,
               twcr := bit TWINT +
                 (if s.dataPtr ≠ wrap (s.dataEnd + M - 1) then bit TWEA else 0) +
                 bit TWEN + bit TWIE } := rfl

/-- The master-read data-received-with-acknowledge branch of the handler. -/
theorem twi_isr_readDataAck (s : TWI) :
    twi_isr s i2c_status_masterRead_dataAck =
      { s with status := i2c_status_masterRead_dataAck,
               mem := fun a => if a = s.dataPtr then s.twdr % 2 ^ 8 else s.mem a,
               dataPtr := wrap (s.dataPtr + 1),
               twcr := bit TWINT +
                 (if wrap (s.dataPtr + 1) ≠ wrap (s.dataEnd + M - 1) then bit TWEA else 0) +
                 bit TWEN + bit TWIE } := rfl

/-- The master-read data-received-with-non-acknowledge branch of the handler. -/
theorem twi_isr_readDataNak (s : TWI) :
    twi_isr s i2c_status_masterRead_dataNak =
      (if s.flag % 2 = 1 then
        { s with status := i2c_status_masterRead_dataNak,
                 mem := fun a => if a = s.dataPtr then s.twdr % 2 ^ 8 else s.mem a,
                 dataPtr := wrap (s.dataPtr + 1),
                 state := i2c_state_free,
                 twcr := bit TWEN }
      else
        { s with status := i2c_status_masterRead_dataNak,
                 mem := fun a => if a = s.dataPtr then s.twdr % 2 ^ 8 else s.mem a,
                 dataPtr := wrap (s.dataPtr + 1),
                 state := i2c_state_free,
                 twcr := bit TWINT + bit TWSTO + bit TWEN }) := rfl

/- ==== Claim theorems ==== -/

/-- C1 (amended): while `state == MasterWriting`, an address-nak or
data-nak status code is handled by the same branch as an acknowledge:
if bytes remain the handler loads the next buffer byte into the data
register and advances the cursor, leaving `state = MasterWriting` (the
transaction does not end on the nak event); only when no bytes remain
does that event set `state = Idle`. -/
theorem i2c_write_nak_continues (s : TWI) (twsr : Nat)
    (hst : s.state = i2c_state_masterWrite)
    (hc : twsrMask twsr = i2c_status_masterWrite_addrNak ∨
          twsrMask twsr = i2c_status_masterWrite_dataNak) :
    (s.dataPtr ≠ s.dataEnd →
      (twi_isr s twsr).state = i2c_state_masterWrite ∧
      (twi_isr s twsr).dataPtr = wrap (s.dataPtr + 1) ∧
      (twi_isr s twsr).twdr = s.mem s.dataPtr) ∧
    (s.dataPtr = s.dataEnd → (twi_isr s twsr).state = i2c_state_free) := by
  have hc4 : twsrMask twsr = i2c_status_masterWrite_addrAck ∨
      twsrMask twsr = i2c_status_masterWrite_addrNak ∨
      twsrMask twsr = i2c_status_masterWrite_dataAck ∨
      twsrMask twsr = i2c_status_masterWrite_dataNak := by
    rcases hc with h | h
    · exact Or.inr (Or.inl h)
    · exact Or.inr (Or.inr (Or.inr h))
  have hd := twiDispatch_write_eq { s with status := twsrMask twsr } (twsrMask twsr) hc4
  simp only [twi_isr, hd]
  constructor
  · intro hne
    rw [if_pos hne]
    exact ⟨hst, rfl, rfl⟩
  · intro heq
    rw [if_neg (by simp [heq])]
    split_ifs <;> rfl

/-- C1 witness: a concrete data-nak event with two bytes remaining
advances the cursor and keeps the state in MasterWriting. -/
theorem i2c_write_nak_continues_witness :
    (twi_isr twiW2 i2c_status_masterWrite_dataNak).state = i2c_state_masterWrite ∧
    (twi_isr twiW2 i2c_status_masterWrite_dataNak).dataPtr = wrap (twiW2.dataPtr + 1) ∧
    (twi_isr twiW2 i2c_status_masterWrite_dataNak).twdr = twiW2.mem twiW2.dataPtr :=
  (i2c_write_nak_continues twiW2 i2c_status_masterWrite_dataNak rfl (Or.inr rfl)).1 (by decide)

/-- C1 counterexample: a data-nak received in MasterWriting with bytes
remaining does not end the transaction: the state stays MasterWriting
(not Idle), the leftover count shrinks, and a further byte is loaded
into the data register, contradicting the claim. -/
theorem i2c_write_nak_cex :
    (twi_isr twiW2 i2c_status_masterWrite_dataNak).state ≠ i2c_state_free ∧
    i2c_getProgress (twi_isr twiW2 i2c_status_masterWrite_dataNak) = 1 ∧
    (twi_isr twiW2 i2c_status_masterWrite_dataNak).twdr = 11 := by
  refine ⟨by decide, by decide, rfl⟩

/-- C2 (amended): a status code outside the decoded set (for example
arbitration loss, `0x38`) received while `state == MasterWriting`
leaves the context with `state = Idle` and `lastStatus` equal to the
(masked) received code, regardless of how many bytes remain — but the
catch-all branch writes `TWCR = TWINT|TWEN`, merely clearing the
interrupt flag: it does not force a stop condition (only the bus-error
code `0x00` branch does). -/
theorem i2c_unrecognized_status_recovery (s : TWI) (twsr : Nat)
    (_hst : s.state = i2c_state_masterWrite)
    (hc : twsrMask twsr ≠ i2c_status_master_start ∧
          twsrMask twsr ≠ i2c_status_master_repeatedStart ∧
          twsrMask twsr ≠ i2c_status_masterWrite_addrAck ∧
          twsrMask twsr ≠ i2c_status_masterWrite_addrNak ∧
          twsrMask twsr ≠ i2c_status_masterWrite_dataAck ∧
          twsrMask twsr ≠ i2c_status_masterWrite_dataNak ∧
          twsrMask twsr ≠ i2c_status_masterRead_addrAck ∧
          twsrMask twsr ≠ i2c_status_masterRead_addrNak ∧
          twsrMask twsr ≠ i2c_status_masterRead_dataAck ∧
          twsrMask twsr ≠ i2c_status_masterRead_dataNak ∧
          twsrMask twsr ≠ i2c_status_error) :
    (twi_isr s twsr).state = i2c_state_free ∧
    (twi_isr s twsr).status = twsrMask twsr ∧
    (twi_isr s twsr).dataPtr = s.dataPtr ∧
    (twi_isr s twsr).twcr = bit TWINT + bit TWEN ∧
    Nat.testBit (twi_isr s twsr).twcr TWSTO = false := by
  obtain ⟨h1, h2, h3, h4, h5, h6, h7, h8, h9, h10, h11⟩ := hc
  simp only [twi_isr, twiDispatch]
  rw [if_neg (by tauto), if_neg (by tauto), if_neg h7, if_neg h8, if_neg h9,
     if_neg h10, if_neg h11]
  exact ⟨rfl, rfl, rfl, rfl, testBit_stop_catchall⟩

/-- C2 witness: injecting the arbitration-loss code `0x38` with three
bytes remaining while MasterWriting. -/
theorem i2c_unrecognized_status_recovery_witness :
    (twi_isr twiW3 i2c_status_master_lost).state = i2c_state_free ∧
    (twi_isr twiW3 i2c_status_master_lost).status = twsrMask i2c_status_master_lost ∧
    (twi_isr twiW3 i2c_status_master_lost).dataPtr = twiW3.dataPtr ∧
    (twi_isr twiW3 i2c_status_master_lost).twcr = bit TWINT + bit TWEN ∧
    Nat.testBit (twi_isr twiW3 i2c_status_master_lost).twcr TWSTO = false :=
  i2c_unrecognized_status_recovery twiW3 i2c_status_master_lost rfl (by decide)

/-- C2 counterexample: on the arbitration-loss code `0x38` in
MasterWriting, the handler does not set the stop bit (TWSTO) in the
control register, contradicting the claimed forced stop condition. -/
theorem i2c_unrecognized_no_stop_cex :
    Nat.testBit (twi_isr twiW4 i2c_status_master_lost).twcr TWSTO = false := by decide

/-- C8: when a transaction reaches its success completion event — a
master-write acknowledge event with no bytes remaining, or the
master-read final-byte data-nak event — the state becomes Idle on that
event, and the stop bit (TWSTO) is written iff the HoldBus flag is
clear: with the flag set the bus stays claimed, with it clear a stop
condition releases the bus. -/
theorem i2c_hold_bus_completion (s : TWI) (twsr : Nat)
    (hc : ((twsrMask twsr = i2c_status_masterWrite_addrAck ∨
            twsrMask twsr = i2c_status_masterWrite_addrNak ∨
            twsrMask twsr = i2c_status_masterWrite_dataAck ∨
            twsrMask twsr = i2c_status_masterWrite_dataNak) ∧
           s.dataPtr = s.dataEnd) ∨
          twsrMask twsr = i2c_status_masterRead_dataNak) :
    (twi_isr s twsr).state = i2c_state_free ∧
    (s.flag % 2 = 1 → Nat.testBit (twi_isr s twsr).twcr TWSTO = false) ∧
    (s.flag % 2 ≠ 1 → Nat.testBit (twi_isr s twsr).twcr TWSTO = true) := by
  rcases hc with ⟨hc4, heq⟩ | hnak
  · have hd := twiDispatch_write_eq { s with status := twsrMask twsr } (twsrMask twsr) hc4
    simp only [twi_isr, hd]
    rw [if_neg (by simp [heq])]
    by_cases hf : s.flag % 2 = 1
    · rw [if_pos hf]
      exact ⟨rfl, fun _ => testBit_stop_hold, fun h => absurd hf h⟩
    · rw [if_neg hf]
      exact ⟨rfl, fun h => absurd h hf, fun _ => testBit_stop_release⟩
  · simp only [twi_isr]
    rw [hnak, twiDispatch_readDataNak_eq]
    by_cases hf : s.flag % 2 = 1
    · rw [if_pos hf]
      exact ⟨rfl, fun _ => testBit_stop_hold, fun h => absurd hf h⟩
    · rw [if_neg hf]
      exact ⟨rfl, fun h => absurd h hf, fun _ => testBit_stop_release⟩

/-- C8 witness: a write completion event with HoldBus set leaves the
state Idle without a stop condition. -/
theorem i2c_hold_bus_completion_witness :
    (twi_isr twiHold i2c_status_masterWrite_dataAck).state = i2c_state_free ∧
    (twiHold.flag % 2 = 1 →
      Nat.testBit (twi_isr twiHold i2c_status_masterWrite_dataAck).twcr TWSTO = false) ∧
    (twiHold.flag % 2 ≠ 1 →
      Nat.testBit (twi_isr twiHold i2c_status_masterWrite_dataAck).twcr TWSTO = true) :=
  i2c_hold_bus_completion twiHold i2c_status_masterWrite_dataAck (Or.inl ⟨by decide, rfl⟩)

/- ==== Further helper lemmas for the invariant and ack-law claims ==== -/

/-- The master-read data-received-with-acknowledge branch of the dispatch. -/
theorem twiDispatch_readDataAck_eq (s : TWI) :
    twiDispatch s i2c_status_masterRead_dataAck =
      { s with mem := fun a => if a = s.dataPtr then s.twdr % 2 ^ 8 else s.mem a,
               dataPtr := wrap (s.dataPtr + 1),
               twcr := bit TWINT +
                 (if wrap (s.dataPtr + 1) ≠ wrap (s.dataEnd + M - 1) then bit TWEA else 0) +
                 bit TWEN + bit TWIE } := rfl

/-- Every branch other than the master-write group and the two
data-received branches leaves `dataStart`, `dataPtr` and `dataEnd`
unchanged. -/
theorem twiDispatch_ptr_const (s : TWI) (c : Nat)
    (hng : ¬(c = i2c_status_masterWrite_addrAck ∨ c = i2c_status_masterWrite_addrNak ∨
             c = i2c_status_masterWrite_dataAck ∨ c = i2c_status_masterWrite_dataNak))
    (h50 : c ≠ i2c_status_masterRead_dataAck) (h58 : c ≠ i2c_status_masterRead_dataNak) :
    (twiDispatch s c).dataStart = s.dataStart ∧ (twiDispatch s c).dataPtr = s.dataPtr ∧
    (twiDispatch s c).dataEnd = s.dataEnd := by
  unfold twiDispatch
  split_ifs <;> exact ⟨rfl, rfl, rfl⟩

/-- One handler invocation keeps `dataStart`/`dataEnd` and advances
`dataPtr` by zero or one, staying at or below `dataEnd`, provided a
data-received code only arrives while `dataPtr < dataEnd`. -/
theorem twi_isr_ptr_step (s : TWI) (twsr : Nat)
    (h1 : s.dataPtr ≤ s.dataEnd) (h2 : s.dataEnd < M)
    (hg : (twsrMask twsr = i2c_status_masterRead_dataAck ∨
           twsrMask twsr = i2c_status_masterRead_dataNak) → s.dataPtr < s.dataEnd) :
    (twi_isr s twsr).dataStart = s.dataStart ∧
    (twi_isr s twsr).dataEnd = s.dataEnd ∧
    ((twi_isr s twsr).dataPtr = s.dataPtr ∨ (twi_isr s twsr).dataPtr = s.dataPtr + 1) ∧
    (twi_isr s twsr).dataPtr ≤ s.dataEnd := by
  by_cases e2 : twsrMask twsr = i2c_status_masterWrite_addrAck ∨
      twsrMask twsr = i2c_status_masterWrite_addrNak ∨
      twsrMask twsr = i2c_status_masterWrite_dataAck ∨
      twsrMask twsr = i2c_status_masterWrite_dataNak
  · have hd := twiDispatch_write_eq { s with status := twsrMask twsr } (twsrMask twsr) e2
    simp only [twi_isr, hd]
    by_cases hne : s.dataPtr = s.dataEnd
    · rw [if_neg (by simp [hne])]
      split_ifs <;> exact ⟨rfl, rfl, Or.inl rfl, h1⟩
    · rw [if_pos (by simpa using hne)]
      refine ⟨rfl, rfl, Or.inr (wrap_eq_of_lt _ (by omega)), ?_⟩
      show wrap (s.dataPtr + 1) ≤ s.dataEnd
      rw [wrap_eq_of_lt _ (by omega)]
      omega
  · by_cases e50 : twsrMask twsr = i2c_status_masterRead_dataAck
    · have hlt := hg (Or.inl e50)
      simp only [twi_isr]
      rw [e50, twiDispatch_readDataAck_eq]
      refine ⟨rfl, rfl, Or.inr (wrap_eq_of_lt _ (by show s.dataPtr + 1 < M; omega)), ?_⟩
      show wrap (s.dataPtr + 1) ≤ s.dataEnd
      rw [wrap_eq_of_lt _ (by omega)]
      omega
    · by_cases e58 : twsrMask twsr = i2c_status_masterRead_dataNak
      · have hlt := hg (Or.inr e58)
        simp only [twi_isr]
        rw [e58, twiDispatch_readDataNak_eq]
        by_cases hf : s.flag % 2 = 1
        · rw [if_pos hf]
          refine ⟨rfl, rfl, Or.inr (wrap_eq_of_lt _ (by show s.dataPtr + 1 < M; omega)), ?_⟩
          show wrap (s.dataPtr + 1) ≤ s.dataEnd
          rw [wrap_eq_of_lt _ (by omega)]
          omega
        · rw [if_neg hf]
          refine ⟨rfl, rfl, Or.inr (wrap_eq_of_lt _ (by show s.dataPtr + 1 < M; omega)), ?_⟩
          show wrap (s.dataPtr + 1) ≤ s.dataEnd
          rw [wrap_eq_of_lt _ (by omega)]
          omega
      · have hk := twiDispatch_ptr_const { s with status := twsrMask twsr } (twsrMask twsr)
          e2 e50 e58
        refine ⟨hk.1, hk.2.2, Or.inl hk.2.1, ?_⟩
        have hp := hk.2.1
        show (twi_isr s twsr).dataPtr ≤ s.dataEnd
        calc (twi_isr s twsr).dataPtr = s.dataPtr := hp
      _ ≤ s.dataEnd := h1

/-- One guarded handler invocation advances `dataPtr` by zero or one
and never increases `i2c_getProgress`. -/
theorem i2c_step_mono (t : TWI) (twsr twdr : Nat)
    (h1 : t.dataPtr ≤ t.dataEnd) (h2 : t.dataEnd < M)
    (hg : (twsrMask twsr = i2c_status_masterRead_dataAck ∨
           twsrMask twsr = i2c_status_masterRead_dataNak) → t.dataPtr < t.dataEnd) :
    ((twi_isr { t with twdr := twdr } twsr).dataPtr = t.dataPtr ∨
     (twi_isr { t with twdr := twdr } twsr).dataPtr = t.dataPtr + 1) ∧
    i2c_getProgress (twi_isr { t with twdr := twdr } twsr) ≤ i2c_getProgress t := by
  obtain ⟨hst, hen, hp, hle⟩ := twi_isr_ptr_step { t with twdr := twdr } twsr h1 h2 hg
  refine ⟨hp, ?_⟩
  have e1 : i2c_getProgress (twi_isr { t with twdr := twdr } twsr) =
      (twi_isr { t with twdr := twdr } twsr).dataEnd -
        (twi_isr { t with twdr := twdr } twsr).dataPtr :=
    i2c_getProgress_eq _ (by rw [hen]; exact hle) (by rw [hen]; exact h2)
  have e2 : i2c_getProgress t = t.dataEnd - t.dataPtr := i2c_getProgress_eq t h1 h2
  rw [e1, e2, hen]
  rcases hp with h | h
  · rw [h]
  · rw [h]
    show t.dataEnd - (t.dataPtr + 1) ≤ t.dataEnd - t.dataPtr
    omega

/-- C3 (amended): from any `i2c_master_write`/`i2c_master_read` start
whose buffer does not wrap the address space, along any event sequence
in which data-received codes arrive only while `cursor < end` (the
`GuardedReach` relation), every reachable context satisfies
`start ≤ cursor ≤ end`, and from any such context one further handler
invocation advances the cursor by exactly one element or leaves it
unchanged and never increases `getProgress()`.  Unguarded sequences
violate the claim (see the counterexample). -/
theorem i2c_cursor_invariant (s : TWI) (addr flag data size : Nat) (s0 t : TWI)
    (hwrap : data + size < M)
    (hstart : s0 = i2c_master_write s addr flag data size ∨
              s0 = i2c_master_read s addr flag data size)
    (hreach : GuardedReach s0 t) :
    t.dataStart = data ∧ t.dataEnd = data + size ∧
    data ≤ t.dataPtr ∧ t.dataPtr ≤ data + size ∧
    ∀ twsr twdr : Nat,
      ((twsrMask twsr = i2c_status_masterRead_dataAck ∨
        twsrMask twsr = i2c_status_masterRead_dataNak) → t.dataPtr < t.dataEnd) →
      ((twi_isr { t with twdr := twdr } twsr).dataPtr = t.dataPtr ∨
       (twi_isr { t with twdr := twdr } twsr).dataPtr = t.dataPtr + 1) ∧
      i2c_getProgress (twi_isr { t with twdr := twdr } twsr) ≤ i2c_getProgress t := by
  induction hreach with
  | refl =>
    have hfields : s0.dataStart = data ∧ s0.dataPtr = data ∧ s0.dataEnd = data + size := by
      rcases hstart with h | h <;> subst h <;>
        exact ⟨wrap_eq_of_lt data (by omega), wrap_eq_of_lt data (by omega),
          wrap_eq_of_lt (data + size) hwrap⟩
    obtain ⟨hds, hdp, hde⟩ := hfields
    refine ⟨hds, hde, by omega, by omega, ?_⟩
    intro twsr twdr hgg
    exact i2c_step_mono s0 twsr twdr (by omega) (by omega) hgg
  | step t1 twsr1 twdr1 hr hg1 ih =>
    obtain ⟨ihs, ihe, ihl, ihu, _⟩ := ih
    have h1 : t1.dataPtr ≤ t1.dataEnd := by rw [ihe]; exact ihu
    have h2 : t1.dataEnd < M := by rw [ihe]; exact hwrap
    obtain ⟨hst, hen, hp, hle⟩ := twi_isr_ptr_step { t1 with twdr := twdr1 } twsr1 h1 h2 hg1
    refine ⟨?_, ?_, ?_, ?_, ?_⟩
    · rw [hst]; exact ihs
    · rw [hen]; exact ihe
    · rcases hp with h | h
      · rw [h]; exact ihl
      · rw [h]; exact le_trans ihl (Nat.le_succ _)
    · exact le_trans hle (le_of_eq ihe)
    · intro twsr2 twdr2 hgg
      refine i2c_step_mono _ twsr2 twdr2 ?_ ?_ hgg
      · rw [hen]
        exact hle
      · rw [hen]
        exact h2

/-- C3 witness: the invariant instantiated at the context immediately
after arming a two-byte master-write at address 4. -/
theorem i2c_cursor_invariant_witness :
    (i2c_master_write twi0 3 0 4 2).dataStart = 4 ∧
    (i2c_master_write twi0 3 0 4 2).dataEnd = 4 + 2 ∧
    4 ≤ (i2c_master_write twi0 3 0 4 2).dataPtr ∧
    (i2c_master_write twi0 3 0 4 2).dataPtr ≤ 4 + 2 := by
  have h := i2c_cursor_invariant twi0 3 0 4 2 (i2c_master_write twi0 3 0 4 2)
    (i2c_master_write twi0 3 0 4 2) (by decide) (Or.inl rfl)
    (GuardedReach.refl (i2c_master_write twi0 3 0 4 2))
  exact ⟨h.1, h.2.1, h.2.2.1, h.2.2.2.1⟩

/-- C3 counterexample: after `i2c_master_read` of length 0, the event
sequence address-ack then data-ack (which real hardware can produce,
since the address-ack arming requested an acknowledge) pushes the
cursor past `end` and makes `getProgress()` jump from 0 to 65535, so
under arbitrary status-code sequences the claimed invariant
`start ≤ cursor ≤ end` and progress monotonicity are false. -/
theorem i2c_cursor_overrun_cex :
    (twi_isr { twi_isr (i2c_master_read twi0 0 0 0 0) i2c_status_masterRead_addrAck with
        twdr := 7 } i2c_status_masterRead_dataAck).dataPtr = 1 ∧
    (twi_isr { twi_isr (i2c_master_read twi0 0 0 0 0) i2c_status_masterRead_addrAck with
        twdr := 7 } i2c_status_masterRead_dataAck).dataEnd = 0 ∧
    i2c_getProgress (twi_isr (i2c_master_read twi0 0 0 0 0) i2c_status_masterRead_addrAck) = 0 ∧
    i2c_getProgress (twi_isr { twi_isr (i2c_master_read twi0 0 0 0 0)
        i2c_status_masterRead_addrAck with twdr := 7 } i2c_status_masterRead_dataAck) = 65535 := by
  exact ⟨rfl, rfl, rfl, by decide⟩

/- ==== Helpers for the read acknowledge law ==== -/

theorem twi_isr_readAddrAck_twcr (s : TWI) :
    (twi_isr s i2c_status_masterRead_addrAck).twcr =
      bit TWINT + (if s.dataPtr ≠ wrap (s.dataEnd + M - 1) then bit TWEA else 0) +
      bit TWEN + bit TWIE := rfl

theorem twi_isr_readDataAck_twcr (s : TWI) :
    (twi_isr s i2c_status_masterRead_dataAck).twcr =
      bit TWINT + (if wrap (s.dataPtr + 1) ≠ wrap (s.dataEnd + M - 1) then bit TWEA else 0) +
      bit TWEN + bit TWIE := rfl

theorem i2c_master_read_ptr (s : TWI) (addr flag data size : Nat) :
    (i2c_master_read s addr flag data size).dataPtr = wrap data := rfl

theorem i2c_master_read_end (s : TWI) (addr flag data size : Nat) :
    (i2c_master_read s addr flag data size).dataEnd = wrap (data + size) := rfl

/-- The acknowledge-control word with TWEA clear. -/
theorem testBit_ea_off : Nat.testBit (bit TWINT + 0 + bit TWEN + bit TWIE) TWEA = false := by
  decide

/-- The acknowledge-control word with TWEA set. -/
theorem testBit_ea_on : Nat.testBit (bit TWINT + bit TWEA + bit TWEN + bit TWIE) TWEA = true := by
  decide

/-- After the address-ack event and `j` data-ack events of a length-`N`
master read, the cursor sits at `data + j` and `end` at `data + N`. -/
theorem i2c_readAcks_fields (s : TWI) (addr flag data N : Nat) (hw : data + N < M) :
    ∀ j, j ≤ N →
      (i2c_readAcks (i2c_master_read s addr flag data N) j).dataPtr = data + j ∧
      (i2c_readAcks (i2c_master_read s addr flag data N) j).dataEnd = data + N := by
  intro j
  induction j with
  | zero =>
    intro _
    simp only [i2c_readAcks]
    rw [twi_isr_readAddrAck]
    constructor
    · show wrap data = data + 0
      rw [wrap_eq_of_lt _ (by omega)]
      omega
    · show wrap (data + N) = data + N
      exact wrap_eq_of_lt _ hw
  | succ j ih =>
    intro hj
    obtain ⟨hp, he⟩ := ih (by omega)
    simp only [i2c_readAcks]
    rw [twi_isr_readDataAck]
    constructor
    · show wrap ((i2c_readAcks (i2c_master_read s addr flag data N) j).dataPtr + 1) = data + (j + 1)
      rw [hp, wrap_eq_of_lt _ (by omega)]
      omega
    · show (i2c_readAcks (i2c_master_read s addr flag data N) j).dataEnd = data + N
      exact he

/-- C4: in a master-read transfer of length `N ≥ 1`, the control word
arming reception of byte `j + 1` (produced by the address-ack event for
`j = 0` and by the `j`-th data-ack event otherwise) has the
acknowledge-control bit TWEA set exactly when `j + 1 < N`: TWEA is
asserted for the first `N − 1` bytes and de-asserted for the `N`-th.
In particular for `N = 1` the very first address-ack event already
requests non-acknowledge, because the comparison is `cursor` against
`end − 1`, not `end`. -/
theorem i2c_read_ack_law (s : TWI) (addr flag data N j : Nat)
    (hw : data + N < M) (hN : 1 ≤ N) (hj : j < N) :
    Nat.testBit (i2c_readAcks (i2c_master_read s addr flag data N) j).twcr TWEA
      = decide (j + 1 < N) := by
  cases j with
  | zero =>
    simp only [i2c_readAcks]
    rw [twi_isr_readAddrAck_twcr, i2c_master_read_ptr, i2c_master_read_end,
       wrap_eq_of_lt data (by omega), wrap_eq_of_lt (data + N) (by omega),
       wrap_add_sub_one (data + N) (by omega) (by omega)]
    by_cases hN1 : N = 1
    · rw [if_neg (by omega), testBit_ea_off]
      symm
      exact decide_eq_false (by omega)
    · rw [if_pos (by omega), testBit_ea_on]
      symm
      exact decide_eq_true (by omega)
  | succ j =>
    obtain ⟨hp, he⟩ := i2c_readAcks_fields s addr flag data N hw j (by omega)
    simp only [i2c_readAcks]
    rw [twi_isr_readDataAck_twcr, hp, he,
       wrap_eq_of_lt (data + j + 1) (by omega),
       wrap_add_sub_one (data + N) (by omega) (by omega)]
    by_cases hlast : j + 2 = N
    · rw [if_neg (by omega), testBit_ea_off]
      symm
      exact decide_eq_false (by omega)
    · rw [if_pos (by omega), testBit_ea_on]
      symm
      exact decide_eq_true (by omega)

/-- C4 witness: for a length-1 read the very first address-ack event
already requests non-acknowledge. -/
theorem i2c_read_ack_law_witness :
    Nat.testBit (i2c_readAcks (i2c_master_read twi0 8 0 0 1) 0).twcr TWEA
      = decide (0 + 1 < 1) :=
  i2c_read_ack_law twi0 8 0 0 1 0 (by decide) (by decide) (by decide)

/- ==== Zero-length boundary ==== -/

/-- C5 (amended): a `length == 0` master-write transfer reaches
`state = Idle` on its first address event (ack or nak) without the
handler dereferencing the buffer; a `length == 0` master-read transfer
does not: its address-acknowledged event leaves `state = MasterReading`
(that event itself touches no RAM), and the handler then dereferences
the buffer pointer on a subsequent data-received event. -/
theorem i2c_zero_length_boundary (s : TWI) (addr flag data twsr : Nat)
    (hc : twsrMask twsr = i2c_status_masterWrite_addrAck ∨
          twsrMask twsr = i2c_status_masterWrite_addrNak) :
    (twi_isr (i2c_master_write s addr flag data 0) twsr).state = i2c_state_free ∧
    twi_isr_touches (i2c_master_write s addr flag data 0) twsr = [] ∧
    (twi_isr (i2c_master_read s addr flag data 0) i2c_status_masterRead_addrAck).state =
      i2c_state_masterRead ∧
    twi_isr_touches (i2c_master_read s addr flag data 0) i2c_status_masterRead_addrAck = [] ∧
    twi_isr_touches (twi_isr (i2c_master_read s addr flag data 0) i2c_status_masterRead_addrAck)
      i2c_status_masterRead_dataAck = [wrap data] := by
  have hc4 : twsrMask twsr = i2c_status_masterWrite_addrAck ∨
      twsrMask twsr = i2c_status_masterWrite_addrNak ∨
      twsrMask twsr = i2c_status_masterWrite_dataAck ∨
      twsrMask twsr = i2c_status_masterWrite_dataNak := by
    rcases hc with h | h
    · exact Or.inl h
    · exact Or.inr (Or.inl h)
  refine ⟨?_, ?_, rfl, rfl, rfl⟩
  · have hd := twiDispatch_write_eq
      { i2c_master_write s addr flag data 0 with status := twsrMask twsr } (twsrMask twsr) hc4
    simp only [twi_isr, hd]
    rw [if_neg (fun h => h rfl)]
    split_ifs <;> rfl
  · simp only [twi_isr_touches]
    rw [if_pos hc4, if_neg (fun h => h rfl)]

/-- C5 witness: a zero-length write transfer at address 0, driven with
the write address-ack event. -/
theorem i2c_zero_length_boundary_witness :
    (twi_isr (i2c_master_write twi0 0 0 0 0) i2c_status_masterWrite_addrAck).state =
      i2c_state_free ∧
    twi_isr_touches (i2c_master_write twi0 0 0 0 0) i2c_status_masterWrite_addrAck = [] ∧
    (twi_isr (i2c_master_read twi0 0 0 0 0) i2c_status_masterRead_addrAck).state =
      i2c_state_masterRead ∧
    twi_isr_touches (i2c_master_read twi0 0 0 0 0) i2c_status_masterRead_addrAck = [] ∧
    twi_isr_touches (twi_isr (i2c_master_read twi0 0 0 0 0) i2c_status_masterRead_addrAck)
      i2c_status_masterRead_dataAck = [wrap 0] :=
  i2c_zero_length_boundary twi0 0 0 0 i2c_status_masterWrite_addrAck (Or.inl rfl)

/-- C5 counterexample: a zero-length master-read transfer does not
reach Idle on its first address event — the address-ack event leaves
the state MasterReading, and the following data event dereferences the
buffer pointer (address 0), contradicting the claim. -/
theorem i2c_zero_length_read_cex :
    (twi_isr (i2c_master_read twi0 2 0 0 0) i2c_status_masterRead_addrAck).state ≠
      i2c_state_free ∧
    twi_isr_touches (twi_isr (i2c_master_read twi0 2 0 0 0) i2c_status_masterRead_addrAck)
      i2c_status_masterRead_dataAck = [0] := by
  exact ⟨by decide, by decide⟩

/- ==== UART claims ==== -/

/-- C6 (code-bug evaluation): `uart_init` called with `mode = 0` — no
direction enabled, normal speed, one stop bit — nevertheless programs
the double-speed divisor `f_cpu/(8·baud) − 1` (207 for 16 MHz, 9600
baud, instead of the normal-speed 103), sets the U2X bit, enables both
the transmitter and the receiver with their interrupts, and sets
two stop bits: every `if` in the function tests `mode | constant`, a
bitwise OR with a non-zero constant, which is always true, so the
config argument is ignored. -/
theorem uart_init_config_ignored :
    (uart_init uart0 16000000 9600 0).sfr SFR_CFGA = bit U2X0 ∧
    (uart_init uart0 16000000 9600 0).sfr (SFR_BAUD + 0) = 207 ∧
    (uart_init uart0 16000000 9600 0).sfr (SFR_BAUD + 1) = 0 ∧
    (uart_init uart0 16000000 9600 0).sfr SFR_CFGB =
      bit TXEN0 + bit TXCIE0 + bit RXEN0 + bit RXCIE0 ∧
    (uart_init uart0 16000000 9600 0).sfr SFR_CFGC = bit USBS0 ∧
    (uart_init uart0 16000000 9600 0).mode = Nat.lor uart_mode_txAuto uart_mode_rxAuto := by
  decide

/-- Rewriting of `uart_sendAuto_ISR` as a conditional store after the increment. -/
theorem uart_sendAuto_ISR_eq (v : UART) :
    uart_sendAuto_ISR v =
      if wrap (v.tx_ptr + 1) ≠ v.tx_end then
        setSfr { v with tx_ptr := wrap (v.tx_ptr + 1) } SFR_DATA (v.mem (wrap (v.tx_ptr + 1)))
      else { v with tx_ptr := wrap (v.tx_ptr + 1) } := rfl

/-- After `uart_sendAuto` and `k ≤ L` transmit-empty events, the cursor
sits at `data + k`, the end at `data + L`, RAM is untouched, and the
data register holds the byte at `data + min k (L − 1)`. -/
theorem uart_isrIter_run (u : UART) (data L : Nat) (hw : data + L < M) (hL : 1 ≤ L) :
    ∀ k, k ≤ L →
      (uart_isrIter (uart_sendAuto u data L) k).tx_ptr = data + k ∧
      (uart_isrIter (uart_sendAuto u data L) k).tx_end = data + L ∧
      (uart_isrIter (uart_sendAuto u data L) k).mem = u.mem ∧
      (uart_isrIter (uart_sendAuto u data L) k).sfr SFR_DATA =
        u.mem (data + min k (L - 1)) % 2 ^ 8 := by
  intro k
  induction k with
  | zero =>
    intro _
    refine ⟨?_, ?_, rfl, ?_⟩
    · show wrap data = data + 0
      rw [wrap_eq_of_lt _ (by omega)]
      omega
    · show wrap (data + L) = data + L
      exact wrap_eq_of_lt _ hw
    · show u.mem (wrap data) % 2 ^ 8 = u.mem (data + min 0 (L - 1)) % 2 ^ 8
      have harg : data + min 0 (L - 1) = data := by omega
      rw [wrap_eq_of_lt _ (by omega), harg]
  | succ k ih =>
    intro hk
    obtain ⟨hp, he, hm, hd⟩ := ih (by omega)
    simp only [uart_isrIter]
    rw [uart_sendAuto_ISR_eq, hp, he, hm, wrap_eq_of_lt (data + k + 1) (by omega)]
    by_cases hend : k + 1 = L
    · rw [if_neg (by omega)]
      refine ⟨?_, rfl, rfl, ?_⟩
      · show data + k + 1 = data + (k + 1)
        omega
      · show (uart_isrIter (uart_sendAuto u data L) k).sfr SFR_DATA =
          u.mem (data + min (k + 1) (L - 1)) % 2 ^ 8
        rw [hd]
        have harg : data + min k (L - 1) = data + min (k + 1) (L - 1) := by omega
        rw [harg]
    · rw [if_pos (by omega)]
      refine ⟨?_, rfl, rfl, ?_⟩
      · show data + k + 1 = data + (k + 1)
        omega
      · show u.mem (data + k + 1) % 2 ^ 8 = u.mem (data + min (k + 1) (L - 1)) % 2 ^ 8
        have harg : data + k + 1 = data + min (k + 1) (L - 1) := by omega
        rw [harg]

/-- C7: `uart_sendAuto` of length `L ≥ 1` writes the first buffer byte
into the transmit data register immediately and binds
`tx_ptr = data`, `tx_end = data + L`; after `k ≤ L` transmit-empty
handler invocations `uart_sendAutoProgress` is `L − k` (hence non-zero
for the first `L − 1` and zero exactly from the `L`-th on), and the
`L`-th invocation leaves `tx_ptr == tx_end` without writing a further
byte (the data register still holds the byte loaded by invocation
`L − 1`). -/
theorem uart_sendAuto_completion (u : UART) (data L k : Nat)
    (hw : data + L < M) (hL : 1 ≤ L) (hk : k ≤ L) :
    (uart_sendAuto u data L).sfr SFR_DATA = u.mem data % 2 ^ 8 ∧
    (uart_sendAuto u data L).tx_ptr = data ∧
    (uart_sendAuto u data L).tx_end = data + L ∧
    uart_sendAutoProgress (uart_isrIter (uart_sendAuto u data L) k) = L - k ∧
    (k < L → 0 < uart_sendAutoProgress (uart_isrIter (uart_sendAuto u data L) k)) ∧
    (uart_isrIter (uart_sendAuto u data L) L).tx_ptr =
      (uart_isrIter (uart_sendAuto u data L) L).tx_end ∧
    (uart_isrIter (uart_sendAuto u data L) L).sfr SFR_DATA =
      (uart_isrIter (uart_sendAuto u data L) (L - 1)).sfr SFR_DATA := by
  obtain ⟨hp, he, hm, hd⟩ := uart_isrIter_run u data L hw hL k hk
  obtain ⟨hpL, heL, hmL, hdL⟩ := uart_isrIter_run u data L hw hL L (le_refl L)
  obtain ⟨hp1, he1, hm1, hd1⟩ := uart_isrIter_run u data L hw hL (L - 1) (by omega)
  have hprog : uart_sendAutoProgress (uart_isrIter (uart_sendAuto u data L) k) = L - k := by
    rw [uart_progress_eq _ (by rw [hp, he]; omega) (by rw [he]; omega), hp, he]
    omega
  refine ⟨?_, ?_, ?_, hprog, ?_, ?_, ?_⟩
  · show u.mem (wrap data) % 2 ^ 8 = u.mem data % 2 ^ 8
    rw [wrap_eq_of_lt _ (by omega)]
  · show wrap data = data
    exact wrap_eq_of_lt _ (by omega)
  · show wrap (data + L) = data + L
    exact wrap_eq_of_lt _ hw
  · intro hkL
    rw [hprog]
    omega
  · rw [hpL, heL]
  · rw [hdL, hd1]
    have harg : data + min L (L - 1) = data + min (L - 1) (L - 1) := by omega
    rw [harg]

/-- C7 witness: a three-byte `sendAuto` driven through all three
transmit-empty events. -/
theorem uart_sendAuto_completion_witness :
    (uart_sendAuto uart0 2 3).sfr SFR_DATA = uart0.mem 2 % 2 ^ 8 ∧
    (uart_sendAuto uart0 2 3).tx_ptr = 2 ∧
    (uart_sendAuto uart0 2 3).tx_end = 2 + 3 ∧
    uart_sendAutoProgress (uart_isrIter (uart_sendAuto uart0 2 3) 3) = 3 - 3 ∧
    (3 < 3 → 0 < uart_sendAutoProgress (uart_isrIter (uart_sendAuto uart0 2 3) 3)) ∧
    (uart_isrIter (uart_sendAuto uart0 2 3) 3).tx_ptr =
      (uart_isrIter (uart_sendAuto uart0 2 3) 3).tx_end ∧
    (uart_isrIter (uart_sendAuto uart0 2 3) 3).sfr SFR_DATA =
      (uart_isrIter (uart_sendAuto uart0 2 3) (3 - 1)).sfr SFR_DATA :=
  uart_sendAuto_completion uart0 2 3 3 (by decide) (by decide) (by decide)

/-- C9 (implicit): `uart_sendAuto` with `size == 0` still reads the
byte at the buffer address and writes it to the transmit data register,
while binding `tx_ptr == tx_end`, so `uart_sendAutoProgress` is 0
immediately after the call. -/
theorem uart_sendAuto_zero_size (u : UART) (data : Nat) :
    (uart_sendAuto u data 0).sfr SFR_DATA = u.mem (wrap data) % 2 ^ 8 ∧
    (uart_sendAuto u data 0).tx_ptr = (uart_sendAuto u data 0).tx_end ∧
    uart_sendAutoProgress (uart_sendAuto u data 0) = 0 := by
  refine ⟨rfl, rfl, ?_⟩
  show (wrap data + M - wrap data) % M = 0
  rw [Nat.add_sub_cancel_left]
  exact Nat.mod_self M

/- ==== State-value invariant ==== -/

/-- Each dispatch branch either leaves the state unchanged or resets it
to `i2c_state_free`. -/
theorem twiDispatch_state (s : TWI) (c : Nat) :
    (twiDispatch s c).state = s.state ∨ (twiDispatch s c).state = i2c_state_free := by
  by_cases e2 : c = i2c_status_masterWrite_addrAck ∨ c = i2c_status_masterWrite_addrNak ∨
      c = i2c_status_masterWrite_dataAck ∨ c = i2c_status_masterWrite_dataNak
  · rw [twiDispatch_write_eq s c e2]
    split_ifs <;> first | exact Or.inl rfl | exact Or.inr rfl
  · by_cases e58 : c = i2c_status_masterRead_dataNak
    · rw [e58, twiDispatch_readDataNak_eq]
      split_ifs <;> exact Or.inr rfl
    · unfold twiDispatch
      split_ifs <;> first | exact Or.inl rfl | exact Or.inr rfl

/-- Each interaction preserves membership of the state in
`{free, masterWrite, masterRead}`. -/
theorem i2c_step_state (s : TWI) (op : I2COp)
    (h : s.state = i2c_state_free ∨ s.state = i2c_state_masterWrite ∨
         s.state = i2c_state_masterRead) :
    (i2c_step s op).state = i2c_state_free ∨
    (i2c_step s op).state = i2c_state_masterWrite ∨
    (i2c_step s op).state = i2c_state_masterRead := by
  cases op with
  | opWrite a f d n => exact Or.inr (Or.inl rfl)
  | opRead a f d n => exact Or.inr (Or.inr rfl)
  | opEvent c d =>
    simp only [i2c_step, twi_isr]
    rcases twiDispatch_state { { s with twdr := d } with status := twsrMask c }
      (twsrMask c) with h2 | h2
    · rw [h2]
      show s.state = i2c_state_free ∨ s.state = i2c_state_masterWrite ∨
        s.state = i2c_state_masterRead
      exact h
    · rw [h2]
      exact Or.inl rfl

/-- Running any interaction sequence preserves the state membership. -/
theorem i2c_run_state (ops : List I2COp) : ∀ s : TWI,
    (s.state = i2c_state_free ∨ s.state = i2c_state_masterWrite ∨
     s.state = i2c_state_masterRead) →
    ((i2c_run s ops).state = i2c_state_free ∨
     (i2c_run s ops).state = i2c_state_masterWrite ∨
     (i2c_run s ops).state = i2c_state_masterRead) := by
  induction ops with
  | nil => exact fun s h => h
  | cons op ops ih => exact fun s h => ih (i2c_step s op) (i2c_step_state s op h)

/-- C10 (implicit): after `i2c_init`, along any sequence of
`i2c_master_write`/`i2c_master_read` calls and hardware events, the
state is always one of `{i2c_state_free, i2c_state_masterWrite,
i2c_state_masterRead}`; it is never `i2c_state_error` or
`i2c_state_unknown` — every error path converges on `i2c_state_free`. -/
theorem i2c_state_never_error (s : TWI) (f_cpu f_i2c : Nat) (ops : List I2COp) :
    ((i2c_run (i2c_init s f_cpu f_i2c) ops).state = i2c_state_free ∨
     (i2c_run (i2c_init s f_cpu f_i2c) ops).state = i2c_state_masterWrite ∨
     (i2c_run (i2c_init s f_cpu f_i2c) ops).state = i2c_state_masterRead) ∧
    (i2c_run (i2c_init s f_cpu f_i2c) ops).state ≠ i2c_state_error ∧
    (i2c_run (i2c_init s f_cpu f_i2c) ops).state ≠ i2c_state_unknown := by
  have h := i2c_run_state ops (i2c_init s f_cpu f_i2c) (Or.inl rfl)
  refine ⟨h, ?_, ?_⟩ <;> rcases h with h | h | h <;> rw [h] <;> decide

end AvrLib
